import Mathlib

/-!
Shallow embedding of the decision logic of the Smart Kitchen application
(frontend/src/App.js) together with the spec's Notification Generator and
Recipe Matcher, and proofs of the spec's testable properties.

Times are modelled as integer counts of milliseconds (JS `Date` time values).
JS `Date` string parsing is abstracted as a `parse : String → Option Int`
argument: `parse s = some t` means `new Date(s)` has time value `t`;
`parse s = none` means the string does not parse (an Invalid Date, whose
time value is NaN).  Arithmetic is exact: `Math.ceil(x / 86400000)` on a
finite integer difference `x` is the mathematical ceiling of `x / 86400000`.
-/

/-- The divisor `1000 * 60 * 60 * 24` used by `getDaysUntilExpiry`. -/
def msPerDay : Int := 1000 * 60 * 60 * 24

/-- The JS value held by an item's `expiry_date` field: `null`/`undefined`,
or a string (possibly empty, possibly not a parseable date). -/
inductive ExpiryDate where
  | null
  | str (s : String)
deriving DecidableEq

/-- JS falsiness of an `expiry_date` value, as tested by `!expiryDate`:
`null`/`undefined` and the empty string are falsy; every other string is
truthy. -/
def ExpiryDate.isFalsy : ExpiryDate → Bool
  | .null => true
  | .str s => s == ""

/-- The value returned by `getDaysUntilExpiry`: JS `null`, JS `NaN`
(when the date string does not parse), or a finite integer day count. -/
inductive JsDays where
  | null
  | nan
  | num (d : Int)
deriving DecidableEq

/-- JS strict equality `days === null` on a `getDaysUntilExpiry` result. -/
def JsDays.isNull : JsDays → Bool
  | .null => true
  | .nan => false
  | .num _ => false

/-- JS `days <= k` for an integer literal `k`: `null` coerces to `0`,
`NaN` compares false, and a finite number compares numerically. -/
def JsDays.jsLe (d : JsDays) (k : Int) : Bool :=
  match d with
  | .null => decide (0 ≤ k)
  | .nan => false
  | .num v => decide (v ≤ k)

/-- Math.ceil of `a / msPerDay` in exact arithmetic: the ceiling of the
rational `a / 86400000`, computed as `-((-a) / 86400000)` (Lean's `/` on
`Int` is floor division for a positive divisor). -/
def ceilDivMsPerDay (a : Int) : Int := -((-a) / msPerDay)

/-- The function `getDaysUntilExpiry` (App.js lines 226-233):
`if (!expiryDate) return null;` then
`Math.ceil((new Date(expiryDate) - new Date()) / 86400000)`.
`now` is the time value of `new Date()` at the call; an unparseable string
yields NaN. -/
def getDaysUntilExpiry (parse : String → Option Int) (now : Int) :
    ExpiryDate → JsDays
  | .null => .null
  | .str s =>
    if s == "" then .null
    else
      match parse s with
      | Option.none => .nan
      | Option.some t => .num (ceilDivMsPerDay (t - now))

/-- The function `getExpiryStatus` (App.js lines 235-241):
`days === null → 'none'`, `days <= 0 → 'expired'`, `days <= 3 → 'expiring'`,
otherwise `'fresh'`. -/
def getExpiryStatus (parse : String → Option Int) (now : Int)
    (e : ExpiryDate) : String :=
  let days := getDaysUntilExpiry parse now e
  if days.isNull then "none"
  else if days.jsLe 0 then "expired"
  else if days.jsLe 3 then "expiring"
  else "fresh"

/-- The add-item form's initial `expiry_date` value (App.js line 46):
the empty string. -/
def itemFormInitialExpiryDate : ExpiryDate := .str ""

/-- An inventory item, restricted to the fields the alerting and matching
logic reads. -/
structure InventoryItem where
  id : Nat
  name : String
  expiry_date : ExpiryDate
deriving DecidableEq

/-- An alert of the Notification Generator; `days` records the classifier's
day count for the item, which orders the feed. -/
structure Alert where
  itemId : Nat
  message : String
  urgency : String
  days : Int
deriving DecidableEq

/-- A recipe; `expiring_ingredients` is the derived annotation the matcher
fills in. -/
structure Recipe where
  id : Nat
  name : String
  ingredients : List String
  expiring_ingredients : List String
deriving DecidableEq

/-- Insertion into a list sorted by `le`. -/
def insertBy {α : Type} (le : α → α → Bool) (a : α) : List α → List α
  | [] => [a]
  | b :: l => if le a b then a :: b :: l else b :: insertBy le a l

/-- Insertion sort by `le`. -/
def sortBy {α : Type} (le : α → α → Bool) : List α → List α
  | [] => []
  | a :: l => insertBy le a (sortBy le l)

/-- Modelled from the spec: the ingredient-name normalization of §4.3
(case-insensitive, trimmed); the backend that implements the matcher is not
in src/. -/
def normalizeName (s : String) : String :=
  ⟨((s.data.dropWhile Char.isWhitespace).reverse.dropWhile
      Char.isWhitespace).reverse.map Char.toLower⟩

/-- Modelled from the spec: the urgency mapping of the Notification
Generator (§4.2 step 3), whose backend implementation is not in src/:
`expired → high`; `expiring → high` if `days ≤ 1` else `medium`. -/
def urgencyOf (status : String) (days : Int) : String :=
  if status = "expired" then "high"
  else if days ≤ 1 then "high"
  else "medium"

/-- Modelled from the spec: the deterministic alert message (§4.2 step 5):
a fixed phrase for expired items, the remaining day count for expiring
ones. -/
def alertMessage (name status : String) (days : Int) : String :=
  if status = "expired" then name ++ " has expired"
  else name ++ " expires in " ++ toString days ++ " days"

/-- Modelled from the spec: the alert (if any) for one item (§4.2 steps
1-5): only `expired` and `expiring` items qualify, one alert per item. -/
def alertFor (parse : String → Option Int) (now : Int)
    (it : InventoryItem) : Option Alert :=
  match getDaysUntilExpiry parse now it.expiry_date with
  | .num d =>
    let status := getExpiryStatus parse now it.expiry_date
    if status = "expired" ∨ status = "expiring" then
      some { itemId := it.id, message := alertMessage it.name status d,
             urgency := urgencyOf status d, days := d }
    else none
  | _ => none

/-- Modelled from the spec: the Notification Generator (§4.2), whose
backend implementation (behind GET /api/notifications/expiring) is not in
src/: one alert per qualifying item, ordered ascending by day count with
item id as tie-break. -/
def generate (parse : String → Option Int) (items : List InventoryItem)
    (now : Int) : List Alert :=
  sortBy (fun a b =>
      decide (a.days < b.days ∨ (a.days = b.days ∧ a.itemId ≤ b.itemId)))
    (items.filterMap (alertFor parse now))

/-- Modelled from the spec: the at-risk entry of one item (§4.3 step 1):
its normalized name and day count when it classifies expired or expiring. -/
def atRiskEntry (parse : String → Option Int) (now : Int)
    (it : InventoryItem) : Option (String × Int) :=
  match getDaysUntilExpiry parse now it.expiry_date with
  | .num d =>
    if getExpiryStatus parse now it.expiry_date = "expired" ∨
        getExpiryStatus parse now it.expiry_date = "expiring" then
      some (normalizeName it.name, d)
    else none
  | _ => none

/-- Modelled from the spec: the at-risk ingredient set (§4.3 step 1), with
each name's day count. -/
def atRiskPairs (parse : String → Option Int) (items : List InventoryItem)
    (now : Int) : List (String × Int) :=
  items.filterMap (atRiskEntry parse now)

/-- Minimum of a list of day counts (0 on the empty list; the matcher only
applies it to nonempty ones). -/
def minDays : List Int → Int
  | [] => 0
  | d :: ds => ds.foldl min d

/-- Modelled from the spec: scoring of one recipe (§4.3 steps 3-5): the
intersection of its ingredients (normalized) with the at-risk set, kept in
the recipe's own order as the `expiring_ingredients` annotation, together
with the minimum day count among the intersecting at-risk items; recipes
with empty intersection are discarded. -/
def scoreRecipe (pairs : List (String × Int)) (r : Recipe) :
    Option (Recipe × Int) :=
  let inter := r.ingredients.filter
    (fun i => (pairs.map Prod.fst).contains (normalizeName i))
  if inter.isEmpty then none
  else
    some ({ id := r.id, name := r.name, ingredients := r.ingredients,
            expiring_ingredients := inter },
      minDays ((pairs.filter
        (fun p => (inter.map normalizeName).contains p.1)).map Prod.snd))

/-- Modelled from the spec: the ranking order (§4.3 step 6): intersection
size descending, then minimum day count ascending, then recipe id
ascending. -/
def recipeRank (a b : Recipe × Int) : Bool :=
  decide (b.1.expiring_ingredients.length < a.1.expiring_ingredients.length ∨
    (a.1.expiring_ingredients.length = b.1.expiring_ingredients.length ∧
      (a.2 < b.2 ∨ (a.2 = b.2 ∧ a.1.id ≤ b.1.id))))

/-- The matcher's recipe pipeline for a fixed at-risk set. -/
def matchWithPairs (pairs : List (String × Int)) (recipes : List Recipe) :
    List Recipe :=
  (sortBy recipeRank (recipes.filterMap (scoreRecipe pairs))).map Prod.fst

/-- Modelled from the spec: the Recipe Matcher (§4.3), whose backend
implementation (behind GET /api/recipes/expiring) is not in src/. -/
def matchRecipes (parse : String → Option Int) (items : List InventoryItem)
    (recipes : List Recipe) (now : Int) : List Recipe :=
  matchWithPairs (atRiskPairs parse items now) recipes

/-- The observable effects of the notifications `useEffect` (App.js lines
316-327): how many immediate `fetchNotifications` calls its body makes, and
the period of the interval it installs, when one is active. -/
structure NotificationsEffect where
  immediateFetches : Nat
  intervalPeriodMs : Option Nat
deriving DecidableEq

/-- The mount run of the effect (App.js lines 316-325):
`fetchNotifications()` is invoked once immediately, and
`setInterval(fetchNotifications, 300000)` installs a 300000 ms interval. -/
def mountNotificationsEffect : NotificationsEffect :=
  { immediateFetches := 1, intervalPeriodMs := some 300000 }

/-- The effect's cleanup (App.js line 326): `clearInterval(interval)`
removes the installed interval. -/
def cleanupNotificationsEffect (e : NotificationsEffect) :
    NotificationsEffect :=
  { e with intervalPeriodMs := none }

/-- Fire time, in ms after mount, of the k-th tick of the installed
interval (none when no interval is active). -/
def intervalFireTime (e : NotificationsEffect) (k : Nat) : Option Nat :=
  e.intervalPeriodMs.map (fun p => p * (k + 1))

/-- A concrete date parser used to instantiate theorems on executable
inputs: every string parses to time value 0. -/
def sampleParse : String → Option Int := fun _ => some 0

/-- A concrete item used to instantiate theorems on executable inputs. -/
def sampleMilkItem : InventoryItem :=
  { id := 1, name := "Milk", expiry_date := ExpiryDate.str "2024-01-01" }

/-- A concrete recipe used to instantiate theorems on executable inputs. -/
def sampleSmoothie : Recipe :=
  { id := 7, name := "Banana Smoothie", ingredients := ["milk", "sugar"],
    expiring_ingredients := [] }

lemma ceilDivMsPerDay_bounds (a : Int) :
    msPerDay * (ceilDivMsPerDay a - 1) < a ∧ a ≤ msPerDay * ceilDivMsPerDay a := by
  unfold ceilDivMsPerDay msPerDay
  omega

lemma ceilDivMsPerDay_nonpos (a : Int) (h : a ≤ 0) : ceilDivMsPerDay a ≤ 0 := by
  unfold ceilDivMsPerDay msPerDay
  omega

lemma ceilDivMsPerDay_eq_ceil (a : Int) :
    ceilDivMsPerDay a = ⌈(a : ℚ) / (msPerDay : ℚ)⌉ := by
  have hms : (0 : ℚ) < (msPerDay : ℚ) := by norm_num [msPerDay]
  have hb := ceilDivMsPerDay_bounds a
  symm
  rw [Int.ceil_eq_iff]
  constructor
  · rw [lt_div_iff₀ hms]
    have : (ceilDivMsPerDay a - 1) * msPerDay < a := by
      have := hb.1; nlinarith [hb.1]
    exact_mod_cast this
  · rw [div_le_iff₀ hms]
    have : a ≤ ceilDivMsPerDay a * msPerDay := by nlinarith [hb.2]
    exact_mod_cast this

lemma getDaysUntilExpiry_parsed (parse : String → Option Int) (now t : Int)
    (s : String) (hs : s ≠ "") (hp : parse s = some t) :
    getDaysUntilExpiry parse now (.str s) = .num (ceilDivMsPerDay (t - now)) := by
  simp [getDaysUntilExpiry, hs, hp]

lemma getExpiryStatus_parsed (parse : String → Option Int) (now t : Int)
    (s : String) (hs : s ≠ "") (hp : parse s = some t) :
    getExpiryStatus parse now (.str s) =
      if ceilDivMsPerDay (t - now) ≤ 0 then "expired"
      else if ceilDivMsPerDay (t - now) ≤ 3 then "expiring"
      else "fresh" := by
  simp [getExpiryStatus, getDaysUntilExpiry_parsed parse now t s hs hp,
    JsDays.isNull, JsDays.jsLe]

lemma getExpiryStatus_str_cases (parse : String → Option Int) (now : Int)
    (s : String) (hs : s ≠ "") :
    getExpiryStatus parse now (.str s) = "expired" ∨
    getExpiryStatus parse now (.str s) = "expiring" ∨
    getExpiryStatus parse now (.str s) = "fresh" := by
  cases hp : parse s with
  | none =>
    simp [getExpiryStatus, getDaysUntilExpiry, hs, hp, JsDays.isNull, JsDays.jsLe]
  | some t =>
    rw [getExpiryStatus_parsed parse now t s hs hp]
    split_ifs <;> simp

/-- C1: for a present, parseable expiry date the classifier returns
`expired` iff `daysRemaining ≤ 0`, `expiring` iff `0 < daysRemaining ≤ 3`,
`fresh` iff `daysRemaining > 3`, and every date `t ≤ now` classifies as
`expired`. -/
theorem classifier_status_iff (parse : String → Option Int) (now t : Int)
    (s : String) (hs : s ≠ "") (hp : parse s = some t) :
    (getExpiryStatus parse now (.str s) = "expired" ↔
      ceilDivMsPerDay (t - now) ≤ 0) ∧
    (getExpiryStatus parse now (.str s) = "expiring" ↔
      (0 < ceilDivMsPerDay (t - now) ∧ ceilDivMsPerDay (t - now) ≤ 3)) ∧
    (getExpiryStatus parse now (.str s) = "fresh" ↔
      3 < ceilDivMsPerDay (t - now)) ∧
    (t ≤ now → getExpiryStatus parse now (.str s) = "expired") := by
  have hnp : t ≤ now → ceilDivMsPerDay (t - now) ≤ 0 := by
    intro h
    exact ceilDivMsPerDay_nonpos (t - now) (by omega)
  have hq := getExpiryStatus_parsed parse now t s hs hp
  refine ⟨?_, ?_, ?_, ?_⟩
  · rw [hq]
    split_ifs with h1 h2
    · simp [h1]
    · simp
      omega
    · simp
      omega
  · rw [hq]
    split_ifs with h1 h2
    · simp
      omega
    · simp
      omega
    · simp
      omega
  · rw [hq]
    split_ifs with h1 h2
    · simp
      omega
    · simp
      omega
    · simp
      omega
  · intro ht
    rw [hq, if_pos (hnp ht)]

/-- C1 witness: a date exactly at `now` (difference 0 ms) classifies as
`expired`, and the iff characterizations hold there. -/
theorem classifier_status_iff_witness :
    ("2024-01-01" : String) ≠ "" ∧
    (getExpiryStatus (fun _ => some 0) 0 (.str "2024-01-01") = "expired" ↔
      ceilDivMsPerDay (0 - 0) ≤ 0) ∧
    ((0 : Int) ≤ 0 → getExpiryStatus (fun _ => some 0) 0 (.str "2024-01-01") = "expired") := by
  have h := classifier_status_iff (fun _ => some 0) 0 0 "2024-01-01"
    (by decide) rfl
  exact ⟨by decide, h.1, h.2.2.2⟩

/-- C2: the classifier returns `none` exactly when the `expiry_date` value
is absent (JS-falsy: `null`/`undefined` or the empty string, the form's
representation of no date); on `null` it returns `none`, and on every
non-empty string it returns one of `expired`/`expiring`/`fresh`. -/
theorem classifier_none_iff_absent (parse : String → Option Int) (now : Int)
    (e : ExpiryDate) :
    (getExpiryStatus parse now e = "none" ↔ e.isFalsy = true) ∧
    getExpiryStatus parse now .null = "none" ∧
    (∀ s : String, s ≠ "" →
      getExpiryStatus parse now (.str s) = "expired" ∨
      getExpiryStatus parse now (.str s) = "expiring" ∨
      getExpiryStatus parse now (.str s) = "fresh") := by
  refine ⟨?_, rfl, fun s hs => getExpiryStatus_str_cases parse now s hs⟩
  cases e with
  | null => simp [getExpiryStatus, getDaysUntilExpiry, JsDays.isNull, ExpiryDate.isFalsy]
  | str s =>
    by_cases hs : s = ""
    · subst hs
      simp [getExpiryStatus, getDaysUntilExpiry, JsDays.isNull, ExpiryDate.isFalsy]
    · have h3 := getExpiryStatus_str_cases parse now s hs
      constructor
      · intro hnone
        rcases h3 with h | h | h <;> rw [h] at hnone <;> simp at hnone
      · intro hfal
        simp [ExpiryDate.isFalsy, hs] at hfal

/-- C2 witness: instantiation of the universally quantified inner clause at
a concrete non-empty string. -/
theorem classifier_none_iff_absent_witness :
    getExpiryStatus (fun _ => some 0) 0 (.str "x") = "expired" ∨
    getExpiryStatus (fun _ => some 0) 0 (.str "x") = "expiring" ∨
    getExpiryStatus (fun _ => some 0) 0 (.str "x") = "fresh" :=
  (classifier_none_iff_absent (fun _ => some 0) 0 (.str "x")).2.2 "x" (by decide)

/-- C3: for a present, parseable expiry date, `daysRemaining` is the exact
ceiling of the millisecond difference divided by 86,400,000; a date exactly
2 hours (7,200,000 ms) after `now` yields 1, not 0. -/
theorem daysRemaining_is_ceiling (parse : String → Option Int) (now t : Int)
    (s : String) (hs : s ≠ "") (hp : parse s = some t) :
    getDaysUntilExpiry parse now (.str s) =
      .num ⌈((t : ℚ) - (now : ℚ)) / (86400000 : ℚ)⌉ ∧
    (t = now + 7200000 → getDaysUntilExpiry parse now (.str s) = .num 1) := by
  have h1 := getDaysUntilExpiry_parsed parse now t s hs hp
  constructor
  · rw [h1, ceilDivMsPerDay_eq_ceil]
    norm_num [msPerDay]
  · intro ht
    subst ht
    rw [h1]
    norm_num
    decide

/-- C3 witness: with difference 7,200,000 ms (2 hours) the result is 1 day. -/
theorem daysRemaining_is_ceiling_witness :
    getDaysUntilExpiry (fun _ => some 7200000) 0 (.str "x") = .num 1 :=
  (daysRemaining_is_ceiling (fun _ => some 7200000) 0 7200000 "x"
    (by decide) rfl).2 rfl

/-- C7: the embedded classifier functions are pure and deterministic: two
invocations at the same `(parse, now, expiryDate)` inputs always produce
identical results. -/
theorem classifier_deterministic (parse : String → Option Int) (now : Int)
    (e : ExpiryDate) :
    (∀ d₁ d₂ : JsDays, d₁ = getDaysUntilExpiry parse now e →
      d₂ = getDaysUntilExpiry parse now e → d₁ = d₂) ∧
    (∀ r₁ r₂ : String, r₁ = getExpiryStatus parse now e →
      r₂ = getExpiryStatus parse now e → r₁ = r₂) :=
  ⟨fun _ _ h1 h2 => h1.trans h2.symm, fun _ _ h1 h2 => h1.trans h2.symm⟩

/-- C7 witness: two concrete invocations at the same inputs agree. -/
theorem classifier_deterministic_witness :
    JsDays.num 1 = JsDays.num 1 ∧ ("fresh" : String) = "fresh" :=
  ⟨(classifier_deterministic (fun _ => some 7200000) 0 (.str "x")).1
      (.num 1) (.num 1) (by decide) (by decide),
   (classifier_deterministic (fun _ => some (86400000 * 9)) 0 (.str "x")).2
      "fresh" "fresh" (by decide) (by decide)⟩

/-- C9: a non-empty expiry string that does not parse makes
`getDaysUntilExpiry` return NaN (not null), and `getExpiryStatus` then
classifies the item `fresh` (NaN fails both `<= 0` and `<= 3`), not `none`. -/
theorem invalid_date_nan_fresh (parse : String → Option Int) (now : Int)
    (s : String) (hs : s ≠ "") (hp : parse s = Option.none) :
    getDaysUntilExpiry parse now (.str s) = .nan ∧
    getExpiryStatus parse now (.str s) = "fresh" := by
  constructor <;>
    simp [getDaysUntilExpiry, getExpiryStatus, hs, hp, JsDays.isNull, JsDays.jsLe]

/-- C9 witness: the string "not-a-date" under a parser that rejects it. -/
theorem invalid_date_nan_fresh_witness :
    getDaysUntilExpiry (fun _ => Option.none) 0 (.str "not-a-date") = .nan ∧
    getExpiryStatus (fun _ => Option.none) 0 (.str "not-a-date") = "fresh" :=
  invalid_date_nan_fresh (fun _ => Option.none) 0 "not-a-date" (by decide) rfl

/-- C10: the empty string (the add-item form's initial `expiry_date`) is
treated exactly like an absent date: days `null` and status `none`, equal
to the results for a `null` expiry date. -/
theorem empty_string_treated_as_absent (parse : String → Option Int)
    (now : Int) :
    getDaysUntilExpiry parse now itemFormInitialExpiryDate = .null ∧
    getExpiryStatus parse now itemFormInitialExpiryDate = "none" ∧
    getDaysUntilExpiry parse now itemFormInitialExpiryDate =
      getDaysUntilExpiry parse now .null ∧
    getExpiryStatus parse now itemFormInitialExpiryDate =
      getExpiryStatus parse now .null := by
  refine ⟨?_, ?_, ?_, ?_⟩ <;>
    simp [getDaysUntilExpiry, getExpiryStatus, itemFormInitialExpiryDate, JsDays.isNull]

lemma mem_insertBy {α : Type} {le : α → α → Bool} {a b : α} {l : List α} :
    b ∈ insertBy le a l ↔ b = a ∨ b ∈ l := by
  induction l with
  | nil => simp [insertBy]
  | cons c l ih =>
    simp only [insertBy]
    split
    · simp
    · simp [ih]
      tauto

lemma mem_sortBy {α : Type} {le : α → α → Bool} {a : α} {l : List α} :
    a ∈ sortBy le l ↔ a ∈ l := by
  induction l with
  | nil => simp [sortBy]
  | cons c l ih => simp [sortBy, mem_insertBy, ih]

lemma getExpiryStatus_of_num (parse : String → Option Int) (now : Int)
    (e : ExpiryDate) (d : Int)
    (h : getDaysUntilExpiry parse now e = .num d) :
    getExpiryStatus parse now e =
      if d ≤ 0 then "expired" else if d ≤ 3 then "expiring" else "fresh" := by
  simp [getExpiryStatus, h, JsDays.isNull, JsDays.jsLe]

/-- C4: the generator's urgency mapping sends `expired` to `high` and
`expiring` to `high` exactly when `days ≤ 1` (else `medium`); an item whose
`daysRemaining` is 0 classifies `expired` and appears in the `generate`
output with urgency `high`. -/
theorem generator_urgency (parse : String → Option Int) (now : Int)
    (it : InventoryItem) (items : List InventoryItem)
    (hmem : it ∈ items)
    (hd : getDaysUntilExpiry parse now it.expiry_date = .num 0) :
    (∀ d : Int, urgencyOf "expired" d = "high") ∧
    (∀ d : Int, urgencyOf "expiring" d =
      if d ≤ 1 then "high" else "medium") ∧
    getExpiryStatus parse now it.expiry_date = "expired" ∧
    ∃ a ∈ generate parse items now, a.itemId = it.id ∧ a.urgency = "high" := by
  have hstat : getExpiryStatus parse now it.expiry_date = "expired" := by
    rw [getExpiryStatus_of_num parse now it.expiry_date 0 hd]
    norm_num
  refine ⟨fun d => by simp [urgencyOf], fun d => by simp [urgencyOf], hstat, ?_⟩
  have ha : alertFor parse now it =
      some { itemId := it.id, message := alertMessage it.name "expired" 0,
             urgency := "high", days := 0 } := by
    simp [alertFor, hd, hstat, urgencyOf]
  refine ⟨{ itemId := it.id, message := alertMessage it.name "expired" 0,
            urgency := "high", days := 0 }, ?_, rfl, rfl⟩
  unfold generate
  exact mem_sortBy.mpr (List.mem_filterMap.mpr ⟨it, hmem, ha⟩)

/-- C4 witness: a single item expiring exactly at `now` yields a high
urgency alert in the generate output. -/
theorem generator_urgency_witness :
    getExpiryStatus sampleParse 0 sampleMilkItem.expiry_date = "expired" ∧
    ∃ a ∈ generate sampleParse [sampleMilkItem] 0,
      a.itemId = sampleMilkItem.id ∧ a.urgency = "high" := by
  have h := generator_urgency sampleParse 0 sampleMilkItem [sampleMilkItem]
    (by simp) (by decide)
  exact ⟨h.2.2.1, h.2.2.2⟩

/-- C5: matcher totality: an empty recipe catalog or an empty inventory
produces the empty result, not an error. -/
theorem matcher_totality (parse : String → Option Int) (now : Int)
    (items : List InventoryItem) (recipes : List Recipe) :
    matchRecipes parse items [] now = [] ∧
    matchRecipes parse [] recipes now = [] := by
  constructor
  · simp [matchRecipes, matchWithPairs, sortBy]
  · unfold matchRecipes matchWithPairs atRiskPairs
    rw [List.filterMap_nil]
    have h : recipes.filterMap (scoreRecipe []) = [] := by
      rw [List.filterMap_eq_nil_iff]
      intro r _
      simp [scoreRecipe]
    rw [h]
    rfl

lemma atRiskPairs_append (parse : String → Option Int) (now : Int)
    (items₁ items₂ : List InventoryItem) :
    atRiskPairs parse (items₁ ++ items₂) now =
      atRiskPairs parse items₁ now ++ atRiskPairs parse items₂ now := by
  simp [atRiskPairs, List.filterMap_append]

lemma id_mem_matchWithPairs (pairs : List (String × Int))
    (recipes : List Recipe) (i : Nat) :
    (∃ rr ∈ matchWithPairs pairs recipes, rr.id = i) ↔
      ∃ r0 ∈ recipes, r0.id = i ∧
        r0.ingredients.filter
          (fun ing => (pairs.map Prod.fst).contains (normalizeName ing)) ≠ [] := by
  unfold matchWithPairs
  constructor
  · rintro ⟨rr, hrr, hid⟩
    rw [List.mem_map] at hrr
    obtain ⟨pr, hpr, rfl⟩ := hrr
    rw [mem_sortBy, List.mem_filterMap] at hpr
    obtain ⟨r0, hr0, hsc⟩ := hpr
    simp only [scoreRecipe] at hsc
    split at hsc
    · exact absurd hsc (by simp)
    · next hi =>
      obtain rfl := Option.some.inj hsc
      refine ⟨r0, hr0, hid, ?_⟩
      intro hcon
      rw [hcon] at hi
      simp at hi
  · rintro ⟨r0, hr0, hid, hne⟩
    have hsc : scoreRecipe pairs r0 = some
        ({ id := r0.id, name := r0.name, ingredients := r0.ingredients,
           expiring_ingredients := r0.ingredients.filter
             (fun ing => (pairs.map Prod.fst).contains (normalizeName ing)) },
         minDays ((pairs.filter (fun p =>
             ((r0.ingredients.filter (fun ing =>
                 (pairs.map Prod.fst).contains (normalizeName ing))).map
               normalizeName).contains p.1)).map Prod.snd)) := by
      simp only [scoreRecipe]
      rw [if_neg (by simpa [List.isEmpty_iff] using hne)]
    exact ⟨_, List.mem_map.mpr
      ⟨_, mem_sortBy.mpr (List.mem_filterMap.mpr ⟨r0, hr0, hsc⟩), rfl⟩, hid⟩

lemma contains_append_of_contains (l l' : List String) (a : String)
    (h : l.contains a = true) : (l ++ l').contains a = true := by
  simp_all

lemma filter_ne_nil_mono (l : List String) (p q : String → Bool)
    (hpq : ∀ a, p a = true → q a = true) (h : l.filter p ≠ []) :
    l.filter q ≠ [] := by
  intro hq
  apply h
  rw [List.filter_eq_nil_iff] at hq ⊢
  intro a ha hpa
  exact hq a ha (hpq a hpa)

/-- C6: the matcher is monotone under inventory growth: adding an item that
shares an ingredient with a recipe not currently matched either adds that
recipe to the output or leaves the output unchanged, and never removes an
already-matched recipe (recipes identified by id). -/
theorem matcher_monotone (parse : String → Option Int) (now : Int)
    (items : List InventoryItem) (recipes : List Recipe)
    (x : InventoryItem) (r : Recipe) (hr : r ∈ recipes)
    (hshare : (r.ingredients.map normalizeName).contains
      (normalizeName x.name) = true)
    (_hnot : ∀ r' ∈ matchRecipes parse items recipes now, r'.id ≠ r.id) :
    ((∃ r' ∈ matchRecipes parse (items ++ [x]) recipes now, r'.id = r.id) ∨
      matchRecipes parse (items ++ [x]) recipes now =
        matchRecipes parse items recipes now) ∧
    (∀ r' ∈ matchRecipes parse items recipes now,
      ∃ r'' ∈ matchRecipes parse (items ++ [x]) recipes now,
        r''.id = r'.id) := by
  have happ : atRiskPairs parse (items ++ [x]) now =
      atRiskPairs parse items now ++ atRiskPairs parse [x] now :=
    atRiskPairs_append parse now items [x]
  constructor
  · cases he : atRiskEntry parse now x with
    | none =>
      right
      have hsame : atRiskPairs parse (items ++ [x]) now =
          atRiskPairs parse items now := by
        rw [happ]
        simp [atRiskPairs, he]
      unfold matchRecipes
      rw [hsame]
    | some entry =>
      left
      have hp1 : entry.1 = normalizeName x.name := by
        unfold atRiskEntry at he
        split at he
        · split at he
          · obtain rfl := Option.some.inj he
            rfl
          · exact absurd he (by simp)
        · exact absurd he (by simp)
      unfold matchRecipes
      rw [id_mem_matchWithPairs]
      refine ⟨r, hr, rfl, ?_⟩
      obtain ⟨ing, hing, hnm⟩ : ∃ ing ∈ r.ingredients,
          normalizeName ing = normalizeName x.name := by
        simpa using hshare
      have hmemf : ing ∈ r.ingredients.filter (fun i =>
          ((atRiskPairs parse (items ++ [x]) now).map Prod.fst).contains
            (normalizeName i)) := by
        rw [List.mem_filter]
        refine ⟨hing, ?_⟩
        rw [hnm, happ, List.map_append]
        have hB : atRiskPairs parse [x] now = [entry] := by
          simp [atRiskPairs, he]
        rw [hB]
        simp [hp1]
      exact List.ne_nil_of_mem hmemf
  · intro r' hr'
    unfold matchRecipes at hr' ⊢
    have h1 : ∃ rr ∈ matchWithPairs (atRiskPairs parse items now) recipes,
        rr.id = r'.id := ⟨r', hr', rfl⟩
    rw [id_mem_matchWithPairs] at h1
    obtain ⟨r0, hr0, hid, hne⟩ := h1
    rw [id_mem_matchWithPairs]
    refine ⟨r0, hr0, hid, ?_⟩
    refine filter_ne_nil_mono _ _ _ ?_ hne
    intro a ha
    rw [happ, List.map_append]
    exact contains_append_of_contains _ _ _ ha

/-- C6 witness: an empty inventory matches nothing; adding a milk item that
expires at `now` makes the smoothie recipe (which uses milk) appear, and
every previously matched recipe is preserved. -/
theorem matcher_monotone_witness :
    ((∃ r' ∈ matchRecipes sampleParse ([] ++ [sampleMilkItem])
        [sampleSmoothie] 0, r'.id = sampleSmoothie.id) ∨
      matchRecipes sampleParse ([] ++ [sampleMilkItem]) [sampleSmoothie] 0 =
        matchRecipes sampleParse [] [sampleSmoothie] 0) ∧
    (∀ r' ∈ matchRecipes sampleParse [] [sampleSmoothie] 0,
      ∃ r'' ∈ matchRecipes sampleParse ([] ++ [sampleMilkItem])
        [sampleSmoothie] 0, r''.id = r'.id) :=
  matcher_monotone sampleParse 0 [] [sampleSmoothie] sampleMilkItem
    sampleSmoothie (by simp) (by decide) (by decide)

/-- C8: the notifications effect fetches immediately on mount, installs a
fixed five-minute (300000 ms) interval whose consecutive ticks are exactly
300000 ms apart, and its cleanup clears the interval so no periodic work
remains. -/
theorem scheduler_contract :
    1 ≤ mountNotificationsEffect.immediateFetches ∧
    mountNotificationsEffect.intervalPeriodMs = some (5 * 60 * 1000) ∧
    (∀ k : Nat, intervalFireTime mountNotificationsEffect (k + 1) =
      (intervalFireTime mountNotificationsEffect k).map (· + 300000)) ∧
    (∀ e : NotificationsEffect,
      (cleanupNotificationsEffect e).intervalPeriodMs = none) ∧
    (∀ k : Nat, intervalFireTime
      (cleanupNotificationsEffect mountNotificationsEffect) k = none) := by
  refine ⟨by decide, by decide, ?_, fun e => rfl, fun k => rfl⟩
  intro k
  simp [intervalFireTime, mountNotificationsEffect]
  omega
